import Mathlib

/-!
Shallow embedding of the chatbot component of `src/rock_paper_sizzor.py`
(intent router, safety guardrails, arithmetic evaluator, linear solver,
compare/rank helpers and the response builders), together with theorems
settling the specification claims about it.

Python `str` values are modelled as `List Char`; the modelling of
`str.lower`, `str.strip` and `int()` is restricted to ASCII text, which
covers every string constant appearing in the program.
-/

/-- Convert a Lean string literal to the character-list representation used
throughout this development. -/
def str (s : String) : List Char := s.data

/-- The ASCII uppercase-to-lowercase table. -/
def lowerTable : List (Char × Char) :=
  [('A', 'a'), ('B', 'b'), ('C', 'c'), ('D', 'd'), ('E', 'e'), ('F', 'f'),
   ('G', 'g'), ('H', 'h'), ('I', 'i'), ('J', 'j'), ('K', 'k'), ('L', 'l'),
   ('M', 'm'), ('N', 'n'), ('O', 'o'), ('P', 'p'), ('Q', 'q'), ('R', 'r'),
   ('S', 's'), ('T', 't'), ('U', 'u'), ('V', 'v'), ('W', 'w'), ('X', 'x'),
   ('Y', 'y'), ('Z', 'z')]

/-- One character of Python `str.lower`, restricted to ASCII: `A`..`Z` map to
`a`..`z` via the table, everything else is fixed. -/
def pyLowerC (c : Char) : Char :=
  ((lowerTable.find? (fun p => p.1 = c)).map Prod.snd).getD c

/-- Python `str.lower` (ASCII fragment). -/
def pyLower (s : List Char) : List Char := s.map pyLowerC

/-- The ASCII whitespace characters stripped by Python `str.strip()`. -/
def isPyWs (c : Char) : Bool :=
  c = ' ' || c = '\t' || c = '\n' || c = '\r' || c = '\x0b' || c = '\x0c'

/-- Python `str.strip()` with no argument: remove leading and trailing
whitespace. -/
def pyStrip (s : List Char) : List Char :=
  ((s.dropWhile isPyWs).reverse.dropWhile isPyWs).reverse

/-- `detect_intent` from the source: strip and lowercase the input, then test
the six recognized prefixes in order, falling back to `chat`. -/
def detect_intent (text : List Char) : List Char :=
  let t := pyLower (pyStrip text)
  if List.isPrefixOf (str "math:") t then str "math"
  else if List.isPrefixOf (str "compare:") t then str "compare"
  else if List.isPrefixOf (str "rank:") t then str "rank"
  else if List.isPrefixOf (str "explain:") t then str "explain"
  else if List.isPrefixOf (str "summarize:") t then str "summarize"
  else if List.isPrefixOf (str "brainstorm:") t then str "brainstorm"
  else str "chat"

/-- Python `p in t` on strings: substring containment.  The guardrail
patterns other than `self[-\s]?harm` contain no regex metacharacters, so
`re.search` on them is exactly this test. -/
def strIn (p t : List Char) : Bool := decide (p <:+: t)

/-- `re.search` of the one non-literal pattern `self[-\s]?harm`: an occurrence
of `self`, optionally followed by a hyphen or a single whitespace character,
then `harm`. -/
def selfHarmHit (t : List Char) : Bool :=
  strIn (str "selfharm") t ||
  ([ '-', ' ', '\t', '\n', '\r', '\x0b', '\x0c'].any fun c =>
    strIn (str "self" ++ [c] ++ str "harm") t)

/-- `is_harmful` from the source: lowercase the text and search each member of
`HARMFUL_PATTERNS` in order. -/
def is_harmful (text : List Char) : Bool :=
  let t := pyLower text
  strIn (str "suicide") t || strIn (str "kill myself") t ||
  strIn (str "harm myself") t || selfHarmHit t ||
  strIn (str "harm others") t || strIn (str "hurt someone") t ||
  strIn (str "violence") t || strIn (str "bomb") t || strIn (str "weapon") t ||
  strIn (str "abuse") t || strIn (str "poison") t || strIn (str "overdose") t

/-- `is_medical` from the source: lowercase the text and search each member of
`MEDICAL_PATTERNS` (all literal) in order. -/
def is_medical (text : List Char) : Bool :=
  let t := pyLower text
  strIn (str "diagnose") t || strIn (str "symptom") t ||
  strIn (str "treatment") t || strIn (str "medication") t ||
  strIn (str "dose") t || strIn (str "therapy") t ||
  strIn (str "side effect") t || strIn (str "prescribe") t ||
  strIn (str "prognosis") t

/-- The `FACTS` mapping, in insertion order. -/
def FACTS : List (List Char × List Char) :=
  [(str "best metal conductor of heat",
    str "Silver has the highest thermal conductivity among common metals; copper is close."),
   (str "diamond thermal conductivity",
    str "Diamond (not a metal) has extremely high thermal conductivity."),
   (str "ohm law", str "Ohm’s law: V = I × R."),
   (str "newton second law", str "Newton’s second law: F = m × a."),
   (str "python list",
    str "A Python list is an ordered, mutable collection supporting indexing and slicing.")]

/-- `lookup_fact`: lowercase and strip the query, then return the value of the
first `FACTS` key contained in it. -/
def lookup_fact (q : List Char) : Option (List Char) :=
  let ql := pyStrip (pyLower q)
  (FACTS.find? (fun kv => strIn kv.1 ql)).map Prod.snd

/-- `STYLE["short_reply_threshold"]`. -/
def shortReplyThreshold : Nat := 140

/-- `STYLE["max_table_cols"]`. -/
def maxTableCols : Nat := 5

/-- The markdown heading helper `h` from the source (renamed to avoid
clashing with hypothesis names): clamp the level to 1..6 and prepend that
many `#` characters. -/
def mdH (level : Int) (text : List Char) : List Char :=
  let lv := max 1 (min 6 level)
  List.replicate lv.toNat '#' ++ [ ' '] ++ text

/-- The markdown `bullet` helper. -/
def bullet (label desc : List Char) : List Char :=
  str "- **" ++ label ++ str ":** " ++ desc

/-- Python `"\n".join(...)`. -/
def joinNl (xs : List (List Char)) : List Char :=
  List.intercalate (str "\n") xs

/-- The fixed refusal template returned by `respond_chat` on a harmful input. -/
def refusalReply : List Char :=
  joinNl [mdH 3 (str "I can’t help with that"),
    str "I’m here to keep you safe and informed. I can’t assist with harming yourself or others.",
    str "If you want general information or a different topic, I’m here for that."]

/-- The fixed medical-disclaimer template returned by `respond_chat` on a
medical input. -/
def medicalReply : List Char :=
  joinNl [mdH 3 (str "General guidance only"),
    str "I can share general information, but I can’t provide medical advice or diagnoses.",
    str "Consider speaking to a qualified professional for personalized support."]

/-- The multi-paragraph default reply used for long chat inputs. -/
def chatLongReply : List Char :=
  joinNl [mdH 2 (str "Overview"),
    str "Here’s a concise, structured take tailored to your prompt.",
    str "",
    mdH 3 (str "Key points"),
    joinNl [bullet (str "Context") (str "I’m offline, so I’ll focus on reasoning and clarity."),
      bullet (str "Assumptions") (str "I infer intent from your wording and keep answers concise."),
      bullet (str "Next step") (str "Ask for a comparison, math, or a summary for more structure.")]]

/-- `respond_chat` from the source: harmful check, then medical check, then
fact lookup, then a length-conditioned default. -/
def respond_chat (user : List Char) : List Char :=
  if is_harmful user then refusalReply
  else if is_medical user then medicalReply
  else
    match lookup_fact user with
    | some fact => joinNl [mdH 3 (str "Direct answer"), fact]
    | none =>
      if user.length < shortReplyThreshold then
        str "Got it. Want a quick breakdown or a deeper dive?"
      else chatLongReply

/-- The six recognized command prefixes paired with the intent tag each one
selects, in the order the source tests them. -/
def intentTable : List (List Char × List Char) :=
  [(str "math:", str "math"), (str "compare:", str "compare"),
   (str "rank:", str "rank"), (str "explain:", str "explain"),
   (str "summarize:", str "summarize"), (str "brainstorm:", str "brainstorm")]

/-- Binary operators of the Python `ast.BinOp` node.  The first seven are the
binary members of `ALLOWED_OPS`; the rest exist in Python's AST but are not
in the allow-list. -/
inductive PyBinOp
  | add | sub | mult | div | floordiv | mod | pow
  | bitor | bitxor | bitand | lshift | rshift | matmult
  deriving DecidableEq

/-- Unary operators of `ast.UnaryOp`.  Only `usub` (`ast.USub`) is in
`ALLOWED_OPS`. -/
inductive PyUnOp
  | usub | uadd | invert | notOp
  deriving DecidableEq

/-- `ast.BoolOp` operators. -/
inductive PyBoolOp
  | andOp | orOp
  deriving DecidableEq

/-- `ast.Compare` operators (representative set). -/
inductive PyCmpOp
  | ltOp | leOp | gtOp | geOp | eqOp | neOp
  deriving DecidableEq

/-- `ast.Constant` payloads.  Python floats are modelled as exact rationals;
every float the claims touch is exactly representable. -/
inductive PyConst
  | cint (n : Int) | cfloat (q : ℚ) | cbool (b : Bool) | cstr (s : List Char) | cnone
  deriving DecidableEq

/-- Python expression AST nodes relevant to `safe_eval_expr`: the nodes the
evaluator accepts (`Constant`, `BinOp`, `UnaryOp`) and the node kinds the
spec names as rejected (`Name`, `BoolOp`, `Compare`, `Call`, `Attribute`,
`Subscript`, comprehensions). -/
inductive PyExpr
  | konst (c : PyConst)
  | binop (op : PyBinOp) (l r : PyExpr)
  | unaryop (op : PyUnOp) (e : PyExpr)
  | name (id : List Char)
  | boolop (op : PyBoolOp) (values : List PyExpr)
  | compare (l : PyExpr) (op : PyCmpOp) (r : PyExpr)
  | call (f : PyExpr) (args : List PyExpr)
  | attrGet (e : PyExpr) (attr : List Char)
  | subscript (e idx : PyExpr)
  | listcomp (elt : PyExpr)

/-- Runtime values of the evaluator: Python `int`, `float` (as exact ℚ) and
`bool` (a subclass of `int` in Python). -/
inductive PyVal
  | vint (n : Int) | vfloat (q : ℚ) | vbool (b : Bool)
  deriving DecidableEq

/-- View a value as an `int` when Python arithmetic would: `bool` counts as
`int` (`True` is `1`, `False` is `0`); floats do not. -/
def PyVal.intLike : PyVal → Option Int
  | .vint n => some n
  | .vbool b => some (if b then 1 else 0)
  | .vfloat _ => none

/-- Numeric magnitude of a value, as used when an operand forces a float
result. -/
def PyVal.asRat : PyVal → ℚ
  | .vint n => (n : ℚ)
  | .vfloat q => q
  | .vbool b => if b then 1 else 0

/-- The smallest integer magnitude whose correctly rounded double is out of
range: the midpoint `2 ^ 1024 - 2 ^ 970` between the largest finite double
`2 ^ 1024 - 2 ^ 971` and `2 ^ 1024` (round-half-even resolves the tie
upward, past the largest finite double).  CPython raises `OverflowError`
exactly at this bound: `float(n)` on an `int`, and `int / int` true division
on its exact quotient.  Written as a decimal literal so that proofs can
evaluate it; `floatMaxNat_eq` below identifies it with the power form. -/
def floatMaxNat : Nat := 179769313486231580793728971405303415079934132710037826936173778980444968292764750946649017977587207096330286416692887910946555547851940402630657488671505820681908902000708383676273854845817711531764475730270069855571366959622842914819860834936475292719074168444365510704342711559699508093042880177904174497792

/-- Shared shape of `+`, `-`, `*`: `int` (or `bool`) operands give an `int`,
any float operand gives a float. -/
def arith2 (fi : Int → Int → Int) (fq : ℚ → ℚ → ℚ) (a b : PyVal) : PyVal :=
  match a.intLike, b.intLike with
  | some x, some y => .vint (fi x y)
  | _, _ => .vfloat (fq a.asRat b.asRat)

/-- `operator.neg`. -/
def pyNeg : PyVal → PyVal
  | .vint n => .vint (-n)
  | .vfloat q => .vfloat (-q)
  | .vbool b => .vint (-(if b then 1 else 0))

/-- Apply an allow-listed binary operator with Python's numeric semantics:
`/` always produces a float and fails on a zero divisor; `//` is floor
division (`Int.fdiv`, rounding toward negative infinity); `%` follows the
floor-division sign convention (`Int.fmod`); `**` yields an `int` for a
nonnegative `int` exponent and a float for a negative one (error on base 0).
A raised `ZeroDivisionError` is `none`, as is the `OverflowError` CPython's
`int / int` true division raises when the exact quotient's magnitude
reaches `floatMaxNat` (the divisor-zero check comes first, as in the host).
Float arithmetic is modelled exactly over ℚ: a float power with a
non-integral exponent (real-valued in the host) is left outside the model
as `none`, and so are the host's behaviours at the edge of the double range
for float-typed operands — IEEE overflow to infinity, float-power
`OverflowError`, and the `int`-to-`float` conversion inside mixed
`int`/`float` arithmetic. -/
def applyBin (op : PyBinOp) (a b : PyVal) : Option PyVal :=
  match op with
  | .add => some (arith2 (· + ·) (· + ·) a b)
  | .sub => some (arith2 (· - ·) (· - ·) a b)
  | .mult => some (arith2 (· * ·) (· * ·) a b)
  | .div =>
    if b.asRat = 0 then none
    else
      match a.intLike, b.intLike with
      | some x, some y =>
        if floatMaxNat * y.natAbs ≤ x.natAbs then none
        else some (.vfloat (a.asRat / b.asRat))
      | _, _ => some (.vfloat (a.asRat / b.asRat))
  | .floordiv =>
    match a.intLike, b.intLike with
    | some x, some y => if y = 0 then none else some (.vint (Int.fdiv x y))
    | _, _ => if b.asRat = 0 then none else some (.vfloat ((⌊a.asRat / b.asRat⌋ : Int) : ℚ))
  | .mod =>
    match a.intLike, b.intLike with
    | some x, some y => if y = 0 then none else some (.vint (Int.fmod x y))
    | _, _ =>
      if b.asRat = 0 then none
      else some (.vfloat (a.asRat - b.asRat * ((⌊a.asRat / b.asRat⌋ : Int) : ℚ)))
  | .pow =>
    match a.intLike, b.intLike with
    | some x, some y =>
      if 0 ≤ y then some (.vint (x ^ y.toNat))
      else if x = 0 then none else some (.vfloat ((x : ℚ) ^ y))
    | _, _ =>
      if (b.asRat).den = 1 then
        if a.asRat = 0 ∧ (b.asRat).num < 0 then none
        else some (.vfloat (a.asRat ^ (b.asRat).num))
      else none
  | _ => none

/-- Is the operator a binary member of `ALLOWED_OPS`? -/
def binAllowed (op : PyBinOp) : Bool :=
  match op with
  | .add | .sub | .mult | .div | .floordiv | .mod | .pow => true
  | _ => false

/-- `safe_eval_expr` from the source.  The `ast.Num` branch and the
`ast.Constant`/`isinstance(node.value, (int, float))` branch together accept
exactly int, float and bool constants — bool passes because Python's `bool`
is a subclass of `int`.  `BinOp`/`UnaryOp` recurse when the operator is in
`ALLOWED_OPS`; every other node raises (`none`), as do arithmetic errors. -/
def safe_eval_expr : PyExpr → Option PyVal
  | .konst (.cint n) => some (.vint n)
  | .konst (.cfloat q) => some (.vfloat q)
  | .konst (.cbool b) => some (.vbool b)
  | .binop op l r =>
    if binAllowed op then
      match safe_eval_expr l, safe_eval_expr r with
      | some a, some b => applyBin op a b
      | _, _ => none
    else none
  | .unaryop op e =>
    if op = .usub then (safe_eval_expr e).map pyNeg else none
  | _ => none

/-- `float(val)`: the numeric value of the result, as converted by
`math_calculate` before returning it.  `none` models the `OverflowError`
the conversion raises on an `int` whose magnitude reaches `floatMaxNat`
(floats and bools convert without error). -/
def pyFloatE : PyVal → Option ℚ
  | .vint n => if floatMaxNat ≤ n.natAbs then none else some (n : ℚ)
  | .vfloat q => some q
  | .vbool b => some (if b then 1 else 0)

/-- Tokens of the modelled fragment of Python's expression tokenizer:
integer and decimal float literals, identifiers, the keywords appearing in
claim inputs, and the arithmetic operator and parenthesis symbols.
Anything else (`:`, a bare `.`, comparison symbols, …) fails tokenization;
for `math_calculate` a tokenization failure and a parse error are
indistinguishable, both are caught and rendered as the same note. -/
inductive Tok
  | tint (n : Nat)
  | tfloat (q : ℚ)
  | tname (s : List Char)
  | tTrue | tFalse | tNone | tand | tor | tnot
  | tplus | tminus | tstar | tdstar | tslash | tdslash | tpercent
  | tlparen | trparen
  deriving DecidableEq

/-- May a character start an identifier? (ASCII fragment.) -/
def isIdentStart (c : Char) : Bool := c.isAlpha || c = '_'

/-- May a character continue an identifier? (ASCII fragment.) -/
def isIdentChar (c : Char) : Bool := c.isAlpha || c.isDigit || c = '_'

/-- Numeric value of a list of decimal digit characters. -/
def natOfDigits (ds : List Char) : Nat :=
  ds.foldl (fun acc c => 10 * acc + (c.toNat - 48)) 0

/-- Classify a scanned identifier: Python keywords used in the claims become
keyword tokens, everything else is a name. -/
def classifyIdent (id : List Char) : Tok :=
  if id = str "True" then .tTrue
  else if id = str "False" then .tFalse
  else if id = str "None" then .tNone
  else if id = str "and" then .tand
  else if id = str "or" then .tor
  else if id = str "not" then .tnot
  else .tname id

/-- End of a numeric literal's exponent: Python requires at least one digit
after the `e` marker and optional sign, and — like every number — the
literal must not run directly into an identifier character or another dot.
The value is the exact rational `mant * 10 ^ exp`; the host rounds it to
the nearest double, a rounding the exact float model elides. -/
def expDigitsEnd (mant : ℚ) (neg : Bool) (l : List Char) : Option (Tok × List Char) :=
  let ds := l.takeWhile Char.isDigit
  let r := l.dropWhile Char.isDigit
  if ds.isEmpty then none
  else
    let q := if neg then mant / (10 : ℚ) ^ natOfDigits ds
      else mant * (10 : ℚ) ^ natOfDigits ds
    match r with
    | c :: _ => if isIdentStart c ∨ c = '.' then none else some (Tok.tfloat q, r)
    | [] => some (Tok.tfloat q, [])

/-- The optional sign directly after an exponent marker `e`/`E`. -/
def afterExpMark (mant : ℚ) (rest : List Char) : Option (Tok × List Char) :=
  match rest with
  | '+' :: ds => expDigitsEnd mant false ds
  | '-' :: ds => expDigitsEnd mant true ds
  | ds => expDigitsEnd mant false ds

/-- End of a float mantissa: an optional exponent part, then the same
no-adjacent-identifier check as for integers (Python also rejects a second
dot, as in `1.5.2`). -/
def floatEnd (q : ℚ) (r : List Char) : Option (Tok × List Char) :=
  match r with
  | 'e' :: rest => afterExpMark q rest
  | 'E' :: rest => afterExpMark q rest
  | c :: _ => if isIdentStart c ∨ c = '.' then none else some (Tok.tfloat q, r)
  | [] => some (Tok.tfloat q, [])

/-- Scan a numeric literal beginning with the digit `c`: an integer run,
then an optional fraction (`1.`, `1.5`) and optional exponent (`1e5`,
`1.5e-3`), with float values as exact rationals.  A literal directly
followed by an identifier character is a syntax error, as in Python (`2x`).
Exotic literal forms (underscore separators, hex/octal/binary prefixes,
imaginary suffixes) are outside the modelled fragment and also fail. -/
def scanNumber (c : Char) (cs : List Char) : Option (Tok × List Char) :=
  let ds := (c :: cs).takeWhile Char.isDigit
  let r1 := (c :: cs).dropWhile Char.isDigit
  match r1 with
  | '.' :: cs2 =>
    let fracDs := cs2.takeWhile Char.isDigit
    let r2 := cs2.dropWhile Char.isDigit
    floatEnd ((natOfDigits ds : ℚ) +
      (natOfDigits fracDs : ℚ) / (10 : ℚ) ^ fracDs.length) r2
  | 'e' :: rest => afterExpMark (natOfDigits ds : ℚ) rest
  | 'E' :: rest => afterExpMark (natOfDigits ds : ℚ) rest
  | r :: _ => if isIdentStart r then none else some (Tok.tint (natOfDigits ds), r1)
  | [] => some (Tok.tint (natOfDigits ds), [])

/-- A numeric literal led by a dot (`.5`, `.5e2`): Python requires at least
one fraction digit after the bare dot. -/
def dotScan (cs : List Char) : Option (Tok × List Char) :=
  let fracDs := cs.takeWhile Char.isDigit
  let r2 := cs.dropWhile Char.isDigit
  if fracDs.isEmpty then none
  else floatEnd ((natOfDigits fracDs : ℚ) / (10 : ℚ) ^ fracDs.length) r2

/-- One step of the tokenizer on a nonempty input `c :: cs`: `none` is a
syntax error, `some (none, rest)` skips whitespace, `some (some t, rest)`
emits the token `t`; `rest` is in every case a proper suffix, so each step
consumes at least one character. -/
def scanTok (c : Char) (cs : List Char) : Option (Option Tok × List Char) :=
  if c = ' ' ∨ c = '\t' then some (none, cs)
  else if c.isDigit then (scanNumber c cs).map (fun tr => (some tr.1, tr.2))
  else if c = '.' then (dotScan cs).map (fun tr => (some tr.1, tr.2))
  else if isIdentStart c then
    some (some (classifyIdent ((c :: cs).takeWhile isIdentChar)),
      (c :: cs).dropWhile isIdentChar)
  else if c = '+' then some (some .tplus, cs)
  else if c = '-' then some (some .tminus, cs)
  else if c = '*' then
    if cs.head? = some '*' then some (some .tdstar, cs.tail) else some (some .tstar, cs)
  else if c = '/' then
    if cs.head? = some '/' then some (some .tdslash, cs.tail) else some (some .tslash, cs)
  else if c = '%' then some (some .tpercent, cs)
  else if c = '(' then some (some .tlparen, cs)
  else if c = ')' then some (some .trparen, cs)
  else none

/-- Fuel-indexed tokenizer: repeat `scanTok` over the input, collecting the
emitted tokens. -/
def tokenize : Nat → List Char → Option (List Tok)
  | 0, _ => none
  | _, [] => some []
  | fuel + 1, c :: cs =>
    (scanTok c cs).bind (fun tr =>
      match tr.1 with
      | some t => (tokenize fuel tr.2).map (t :: ·)
      | none => tokenize fuel tr.2)

/-- Tokenize a whole input. -/
def pyTokenize (s : List Char) : Option (List Tok) :=
  tokenize (s.length + 1) s

mutual

/-- `or`-level parse: `and`-chains joined by `or`, flattened into one
`BoolOp` as Python's parser does. -/
def parseOr : Nat → List Tok → Option (PyExpr × List Tok)
  | 0, _ => none
  | fuel + 1, toks =>
    match parseAnd fuel toks with
    | none => none
    | some (e, rest) => parseOrCont fuel [e] rest

def parseOrCont : Nat → List PyExpr → List Tok → Option (PyExpr × List Tok)
  | 0, _, _ => none
  | fuel + 1, acc, toks =>
    match toks with
    | .tor :: rest =>
      match parseAnd fuel rest with
      | some (e, r2) => parseOrCont fuel (acc ++ [e]) r2
      | none => none
    | _ =>
      match acc with
      | [e] => some (e, toks)
      | _ => some (.boolop .orOp acc, toks)

/-- `and`-level parse. -/
def parseAnd : Nat → List Tok → Option (PyExpr × List Tok)
  | 0, _ => none
  | fuel + 1, toks =>
    match parseNot fuel toks with
    | none => none
    | some (e, rest) => parseAndCont fuel [e] rest

def parseAndCont : Nat → List PyExpr → List Tok → Option (PyExpr × List Tok)
  | 0, _, _ => none
  | fuel + 1, acc, toks =>
    match toks with
    | .tand :: rest =>
      match parseNot fuel rest with
      | some (e, r2) => parseAndCont fuel (acc ++ [e]) r2
      | none => none
    | _ =>
      match acc with
      | [e] => some (e, toks)
      | _ => some (.boolop .andOp acc, toks)

/-- `not`-level parse: produces `UnaryOp(Not, …)`, rejected downstream. -/
def parseNot : Nat → List Tok → Option (PyExpr × List Tok)
  | 0, _ => none
  | fuel + 1, toks =>
    match toks with
    | .tnot :: rest =>
      match parseNot fuel rest with
      | some (e, r2) => some (.unaryop .notOp e, r2)
      | none => none
    | _ => parseArith fuel toks

/-- Additive level: terms joined by `+`/`-`, left associative. -/
def parseArith : Nat → List Tok → Option (PyExpr × List Tok)
  | 0, _ => none
  | fuel + 1, toks =>
    match parseTerm fuel toks with
    | none => none
    | some (e, rest) => parseArithCont fuel e rest

def parseArithCont : Nat → PyExpr → List Tok → Option (PyExpr × List Tok)
  | 0, _, _ => none
  | fuel + 1, acc, toks =>
    match toks with
    | .tplus :: rest =>
      match parseTerm fuel rest with
      | some (e, r2) => parseArithCont fuel (.binop .add acc e) r2
      | none => none
    | .tminus :: rest =>
      match parseTerm fuel rest with
      | some (e, r2) => parseArithCont fuel (.binop .sub acc e) r2
      | none => none
    | _ => some (acc, toks)

/-- Multiplicative level: factors joined by `*`, `/`, `//`, `%`. -/
def parseTerm : Nat → List Tok → Option (PyExpr × List Tok)
  | 0, _ => none
  | fuel + 1, toks =>
    match parseFactor fuel toks with
    | none => none
    | some (e, rest) => parseTermCont fuel e rest

def parseTermCont : Nat → PyExpr → List Tok → Option (PyExpr × List Tok)
  | 0, _, _ => none
  | fuel + 1, acc, toks =>
    match toks with
    | .tstar :: rest =>
      match parseFactor fuel rest with
      | some (e, r2) => parseTermCont fuel (.binop .mult acc e) r2
      | none => none
    | .tslash :: rest =>
      match parseFactor fuel rest with
      | some (e, r2) => parseTermCont fuel (.binop .div acc e) r2
      | none => none
    | .tdslash :: rest =>
      match parseFactor fuel rest with
      | some (e, r2) => parseTermCont fuel (.binop .floordiv acc e) r2
      | none => none
    | .tpercent :: rest =>
      match parseFactor fuel rest with
      | some (e, r2) => parseTermCont fuel (.binop .mod acc e) r2
      | none => none
    | _ => some (acc, toks)

/-- Unary level: `-`/`+` bind looser than `**` but tighter than `*`, as in
Python's grammar (`factor: (+|-) factor | power`). -/
def parseFactor : Nat → List Tok → Option (PyExpr × List Tok)
  | 0, _ => none
  | fuel + 1, toks =>
    match toks with
    | .tminus :: rest =>
      match parseFactor fuel rest with
      | some (e, r2) => some (.unaryop .usub e, r2)
      | none => none
    | .tplus :: rest =>
      match parseFactor fuel rest with
      | some (e, r2) => some (.unaryop .uadd e, r2)
      | none => none
    | _ => parsePower fuel toks

/-- Power level: `atom ** factor`, right associative with a unary-capable
right-hand side. -/
def parsePower : Nat → List Tok → Option (PyExpr × List Tok)
  | 0, _ => none
  | fuel + 1, toks =>
    match parseAtom fuel toks with
    | some (base, .tdstar :: rest) =>
      match parseFactor fuel rest with
      | some (e, r2) => some (.binop .pow base e, r2)
      | none => none
    | r => r

/-- Atoms: literals, keyword constants, names and parenthesized groups. -/
def parseAtom : Nat → List Tok → Option (PyExpr × List Tok)
  | 0, _ => none
  | fuel + 1, toks =>
    match toks with
    | .tint n :: rest => some (.konst (.cint (n : Int)), rest)
    | .tfloat q :: rest => some (.konst (.cfloat q), rest)
    | .tTrue :: rest => some (.konst (.cbool true), rest)
    | .tFalse :: rest => some (.konst (.cbool false), rest)
    | .tNone :: rest => some (.konst .cnone, rest)
    | .tname id :: rest => some (.name id, rest)
    | .tlparen :: rest =>
      match parseOr fuel rest with
      | some (e, .trparen :: rest2) => some (e, rest2)
      | _ => none
    | _ => none

end

/-- `ast.parse(expr, mode='eval').body` for the modelled fragment: tokenize,
parse a full expression, and require every token to be consumed. -/
def pyParseExpr (s : List Char) : Option PyExpr :=
  match pyTokenize s with
  | none => none
  | some toks =>
    match parseOr (10 * toks.length + 10) toks with
    | some (e, []) => some e
    | _ => none

/-- The fixed user-facing note `math_calculate` returns on any failure. -/
def errNote : List Char :=
  str "- **Note:** I can only handle basic arithmetic (e.g., 2+3*4, (1+2)**3)."

/-- Decimal digits of a natural number. -/
def natStr (n : Nat) : List Char := Nat.toDigits 10 n

/-- Python `str` of an `int`. -/
def intRepr (n : Int) : List Char :=
  if n < 0 then '-' :: natStr n.natAbs else natStr n.natAbs

/-- Python `repr` of a float, modelled exactly for integer-valued floats
(digits followed by `.0`, the host's repr for every float the claims
inspect); other floats are outside the exact model and rendered with a
placeholder. -/
def pyFloatRepr (q : ℚ) : List Char :=
  if q.den = 1 then intRepr q.num ++ str ".0" else str "<float>"

/-- `{val}` interpolation in `math_calculate`'s steps string. -/
def pyReprVal : PyVal → List Char
  | .vint n => intRepr n
  | .vfloat q => pyFloatRepr q
  | .vbool b => if b then str "True" else str "False"

/-- The two-line trace `math_calculate` builds on success. -/
def mathSteps (expr : List Char) (val : PyVal) : List Char :=
  str "- **Expression:** \\(" ++ expr ++ str "\\)\n- **Result:** \\(" ++
    pyReprVal val ++ str "\\)"

/-- `math_calculate` from the source: parse, evaluate, render; every raised
exception is caught by the bare `except` and becomes the fixed note with a
`None` value — including the `OverflowError` of the final `float(val)`
conversion, raised after the steps string is built and therefore discarding
it. -/
def math_calculate (expr : List Char) : List Char × Option ℚ :=
  match pyParseExpr expr with
  | none => (errNote, none)
  | some node =>
    match safe_eval_expr node with
    | none => (errNote, none)
    | some val =>
      match pyFloatE val with
      | none => (errNote, none)
      | some f => (mathSteps expr val, some f)

/-- Is the character `+` or `-`? -/
def isSignC (c : Char) : Bool := c = '+' || c = '-'

/-- The match of `re.match(r"^([+-]?\d*)x([+-]\d+)?$", left)`: `none` when
the regex fails, otherwise the two groups (group 2 `none` when absent).
Group 1 cannot contain `x`, so the literal `x` of the pattern is the first
`x` of the string, and the `$` anchor forces the remainder to match
group 2 exactly.  `coefOk` checks group 1 against `[+-]?\\d*`. -/
def coefOk (g : List Char) : Bool :=
  match g with
  | [] => true
  | c :: rest =>
    if isSignC c then rest.all Char.isDigit else (c :: rest).all Char.isDigit

/-- Does the part after the literal `x` match `([+-]\d+)?$`? -/
def constOk (g : List Char) : Bool :=
  match g with
  | [] => true
  | c :: rest => isSignC c && !rest.isEmpty && rest.all Char.isDigit

def matchLeft (left : List Char) : Option (List Char × Option (List Char)) :=
  if 'x' ∈ left then
    if coefOk (left.takeWhile (· ≠ 'x')) && constOk ((left.dropWhile (· ≠ 'x')).tail) then
      some (left.takeWhile (· ≠ 'x'),
        if ((left.dropWhile (· ≠ 'x')).tail).isEmpty then none
        else some ((left.dropWhile (· ≠ 'x')).tail))
    else none
  else none

/-- `int()` on a sign-and-digits string already known to match the solver's
regex groups. -/
def intOfSignedDigits (s : List Char) : Int :=
  match s with
  | '+' :: ds => (natOfDigits ds : Int)
  | '-' :: ds => -(natOfDigits ds : Int)
  | ds => (natOfDigits ds : Int)

/-- Loop of `pyIntParse`: decimal digits with single underscores allowed
strictly between digits, as Python's `int()` accepts. -/
def digitsUGo (acc : Nat) : List Char → Option Nat
  | [] => some acc
  | '_' :: c :: rest =>
    if c.isDigit then digitsUGo (10 * acc + (c.toNat - 48)) rest else none
  | c :: rest =>
    if c.isDigit then digitsUGo (10 * acc + (c.toNat - 48)) rest else none

/-- Digit-group part of Python `int()`. -/
def digitsWithUnderscores : List Char → Option Nat
  | [] => none
  | c :: rest => if c.isDigit then digitsUGo (c.toNat - 48) rest else none

/-- Python `int(s)` on a string (ASCII fragment): strip whitespace, optional
sign, then digit groups; `none` models the raised `ValueError`. -/
def pyIntParse (s : List Char) : Option Int :=
  match pyStrip s with
  | '+' :: ds => (digitsWithUnderscores ds).map Int.ofNat
  | '-' :: ds => (digitsWithUnderscores ds).map (fun n => -(n : Int))
  | ds => (digitsWithUnderscores ds).map Int.ofNat

/-- Structured outcome of `solve_linear`: one constructor per return
statement of the source, plus `overflowed` for the one exit that is not a
return — the `OverflowError` raised by the division `(c - b) / a` when the
exact quotient's magnitude reaches the double range.  The surrounding `try`
catches only `ZeroDivisionError`, so this exception escapes the function. -/
inductive SolveOutcome
  | noEquals | badLeft | badRight | zeroCoef
  | overflowed (a b c : Int)
  | solved (a b c : Int) (x : ℚ)
  deriving DecidableEq

/-- The control flow of `solve_linear`: remove spaces, require `=`, split at
the first `=`, match the left side, read the coefficients with their
defaults (`''`/`'+'` → 1, `'-'` → −1, absent constant → 0), parse the right
side as an `int`, then divide — `ZeroDivisionError` when `a == 0` (caught),
`OverflowError` when `|c - b| / |a|` reaches `floatMaxNat` (uncaught).
`solveFrom` is the part after the regex groups and the `int()` of the right
side are known. -/
def solveFrom (g1 : List Char) (g2 : Option (List Char)) (rightInt : Option Int) :
    SolveOutcome :=
  let a : Int :=
    if g1 = [] ∨ g1 = ['+'] then 1
    else if g1 = ['-'] then -1
    else intOfSignedDigits g1
  let b : Int :=
    match g2 with
    | none => 0
    | some s2 => intOfSignedDigits s2
  match rightInt with
  | none => .badRight
  | some c =>
    if a = 0 then .zeroCoef
    else if floatMaxNat * a.natAbs ≤ (c - b).natAbs then .overflowed a b c
    else .solved a b c (((c : ℚ) - (b : ℚ)) / (a : ℚ))

def solveLinearR (eq0 : List Char) : SolveOutcome :=
  let eq := eq0.filter (· ≠ ' ')
  if '=' ∈ eq then
    match matchLeft (eq.takeWhile (· ≠ '=')) with
    | none => .badLeft
    | some (g1, g2) => solveFrom g1 g2 (pyIntParse ((eq.dropWhile (· ≠ '=')).tail))
  else .noEquals

/-- Note for a missing `=`. -/
def solveNoEqNote : List Char :=
  str "- **Note:** Please provide an equation like 2x+3=11."

/-- Note for a left-hand side the regex rejects. -/
def solveBadLeftNote : List Char :=
  str "- **Note:** I can only solve simple linear equations like 2x+3=11."

/-- Note for a non-integer right-hand side. -/
def solveBadRightNote : List Char :=
  str "- **Note:** Right-hand side should be a number."

/-- Note for a zero coefficient. -/
def solveZeroNote : List Char :=
  str "- **Note:** Coefficient of x cannot be zero for a linear equation."

/-- `eq.replace("^", "**")` used in the derivation's first line. -/
def caretFix (s : List Char) : List Char :=
  s.foldr (fun c acc => (if c = '^' then str "**" else [c]) ++ acc) []

/-- The four-line derivation trace of a successful solve. -/
def solveDerivation (eq : List Char) (a b c : Int) (x : ℚ) : List Char :=
  joinNl [ str "- **Given:** \\(" ++ caretFix eq ++ str "\\)",
    str "- **Rearrange:** \\(ax + b = c \\Rightarrow x = \\frac{c - b}{a}\\)",
    str "- **Compute:** \\(\\frac\x7b" ++ intRepr c ++ str " - " ++ intRepr b ++
      str "\x7d\x7b" ++ intRepr a ++ str "\x7d = " ++ pyFloatRepr x ++ str "\\)",
    str "- **Solution:** \\(x = " ++ pyFloatRepr x ++ str "\\)"]

/-- `solve_linear` from the source: the structured outcome rendered to the
returned text.  `none` models the one outcome without a return value — the
uncaught `OverflowError` of `(c - b) / a` propagating out of the
function. -/
def solve_linear (eq0 : List Char) : Option (List Char) :=
  match solveLinearR eq0 with
  | .noEquals => some solveNoEqNote
  | .badLeft => some solveBadLeftNote
  | .badRight => some solveBadRightNote
  | .zeroCoef => some solveZeroNote
  | .overflowed _ _ _ => none
  | .solved a b c x => some (solveDerivation (eq0.filter (· ≠ ' ')) a b c x)

/-- Does the top node of the expression fall outside the evaluator's
allow-list as the spec enumerates it (identifiers, attribute or index
access, calls, comparisons, boolean operations, comprehensions, string
literals, `None`)?  Boolean literals are deliberately *not* in this set:
Python's `bool` is a subclass of `int`, so `isinstance(node.value, (int,
float))` accepts them. -/
def rejectedNode : PyExpr → Bool
  | .name _ | .boolop _ _ | .compare _ _ _ | .call _ _ | .attrGet _ _
  | .subscript _ _ | .listcomp _ => true
  | .konst (.cstr _) | .konst .cnone => true
  | _ => false

/-- The language of the regex fragment `[+-]?\d*`: an optional sign followed
by any number of digits. -/
def SignDigitsStar (g : List Char) : Prop :=
  ∃ s ds, (s = [] ∨ s = ['+'] ∨ s = ['-']) ∧ (∀ c ∈ ds, c.isDigit = true) ∧
    g = s ++ ds

/-- The language of the regex fragment `[+-]\d+`: a mandatory sign followed
by at least one digit. -/
def SignDigitsPlus (g : List Char) : Prop :=
  ∃ s ds, (s = ['+'] ∨ s = ['-']) ∧ ds ≠ [] ∧ (∀ c ∈ ds, c.isDigit = true) ∧
    g = s ++ ds

/-- The spec's description of an acceptable left-hand side: an optional
signed integer coefficient, the literal `x`, and an optional signed integer
constant — the language of `^([+-]?\d*)x([+-]\d+)?$`. -/
def LeftForm (l : List Char) : Prop :=
  ∃ g1 g2, SignDigitsStar g1 ∧ (g2 = [] ∨ SignDigitsPlus g2) ∧
    l = g1 ++ 'x' :: g2

/-- Index of the first occurrence of `sub` in `s`, when any. -/
def findSub (s sub : List Char) : Option Nat :=
  (List.range (s.length + 1)).find? (fun i => sub.isPrefixOf (s.drop i))

/-- Python `s.split(sub, 1)[-1]`: the text after the first occurrence of
`sub`, or all of `s` when `sub` does not occur (a one-element split). -/
def pySplitLast (s sub : List Char) : List Char :=
  match findSub s sub with
  | some i => s.drop (i + sub.length)
  | none => s

/-- The `table` helper from the source: clamp headers to `max_table_cols`,
emit a header row, a dashes row and the data rows, each row truncated to the
header width. -/
def mdTable (headers : List (List Char)) (rows : List (List (List Char))) : List Char :=
  if headers = [] then []
  else
    let hs := headers.take maxTableCols
    joinNl ((str "| " ++ List.intercalate (str " | ") hs ++ str " |") ::
      (str "| " ++ List.intercalate (str " | ")
        (List.replicate hs.length (str "---")) ++ str " |") ::
      rows.map (fun row =>
        str "| " ++ List.intercalate (str " | ") (row.take hs.length) ++ str " |"))

/-- `parse_compare_payload` from the source: strip the part after
`compare:`, split it on `|` into items and attributes, then split each on
commas, keeping only nonempty stripped entries. -/
def parse_compare_payload (t : List Char) : List (List Char) × List (List Char) :=
  let payload := pyStrip (pySplitLast t (str "compare:"))
  let parts := (payload.splitOn '|').map pyStrip
  let items := parts.headD []
  let attrs := parts.getD 1 []
  (((items.splitOn ',').map pyStrip).filter (· ≠ []),
   ((attrs.splitOn ',').map pyStrip).filter (· ≠ []))

/-- `rank_items` from the source: `sorted(items, key=lambda s: s.lower())`,
modelled with the stable `mergeSort` under the lowercased lexicographic
order (Python's sort is also stable, and a stable sort is uniquely
determined by the ordering, so the two agree). -/
def rank_items (items : List (List Char)) : List (List Char) :=
  items.mergeSort (fun a b => decide (pyLower a ≤ pyLower b))

/-- `respond_math` from the source: the payload is the original (unlowered)
input split on the literal `"math:"`; a payload starting with `solve` goes
to the linear solver, everything else to the evaluator.  `respond_math`
adds no exception handler, so an exception escaping `solve_linear`
propagates (`none`). -/
def respond_math (user : List Char) : Option (List Char) :=
  let payload := pyStrip (pySplitLast user (str "math:"))
  if List.isPrefixOf (str "solve") payload then
    (solve_linear (pyStrip (pySplitLast payload (str "solve")))).map
      (fun s => joinNl [mdH 2 (str "Linear equation solution"), s])
  else
    some (joinNl [mdH 2 (str "Computation"), (math_calculate payload).1])

/-- `respond_explain` from the source. -/
def respond_explain (user : List Char) : List Char :=
  let topic0 := pyStrip (pySplitLast user (str "explain:"))
  let topic := if topic0 = [] then str "that topic" else topic0
  joinNl [mdH 2 (str "Explainer: " ++ topic),
    mdH 3 (str "Core idea"),
    str "Think of it as a system with inputs, a transformation, and outputs—optimize the transformation.",
    mdH 3 (str "Why it matters"),
    joinNl [bullet (str "Clarity") (str "It reduces ambiguity and helps decisions."),
      bullet (str "Speed") (str "Clear models shorten feedback loops."),
      bullet (str "Reliability") (str "Explicit assumptions avoid hidden errors.")]]

/-- Loop of `re.split(r"(?<=[.!?])\s+", text)`: split at each whitespace run
immediately preceded by `.`, `!` or `?`; `prev` is the character consumed
just before the current position. -/
def sentSplitGo : Nat → Option Char → List Char → List Char → List (List Char)
  | 0, _, acc, _ => [acc.reverse]
  | _, _, acc, [] => [acc.reverse]
  | fuel + 1, prev, acc, c :: rest =>
    if isPyWs c ∧ (prev = some '.' ∨ prev = some '!' ∨ prev = some '?') then
      acc.reverse :: sentSplitGo fuel none [] ((c :: rest).dropWhile isPyWs)
    else
      sentSplitGo fuel (some c) (c :: acc) rest

/-- `re.split(r"(?<=[.!?])\s+", text)`. -/
def sentSplit (text : List Char) : List (List Char) :=
  sentSplitGo (text.length + 1) none [] text

/-- `respond_summarize` from the source. -/
def respond_summarize (user : List Char) : List Char :=
  let text := pyStrip (pySplitLast user (str "summarize:"))
  if text = [] then
    joinNl [mdH 3 (str "I need the text"), str "Paste the content after 'summarize:'"]
  else
    joinNl [mdH 2 (str "Summary"),
      joinNl (((((sentSplit text).map pyStrip).filter (· ≠ [])).take 6).enum.map
        (fun p => bullet (str "Point " ++ natStr (p.1 + 1)) p.2))]

/-- `respond_brainstorm` from the source. -/
def respond_brainstorm (user : List Char) : List Char :=
  let topic0 := pyStrip (pySplitLast user (str "brainstorm:"))
  let topic := if topic0 = [] then str "your idea" else topic0
  joinNl [mdH 2 (str "Brainstorm: " ++ topic),
    mdTable [str "Idea", str "Why"]
      [[str "Lean pilot", str "Ship a minimal core to validate demand quickly."],
       [str "Delight hooks", str "Add one playful feature users talk about."],
       [str "Data loop", str "Instrument usage to learn and iterate weekly."],
       [str "Partner angle", str "Find a collaborator who amplifies reach."]]]

/-- `respond_compare` from the source. -/
def respond_compare (user : List Char) : List Char :=
  let pr := parse_compare_payload user
  if pr.1 = [] ∨ pr.2 = [] then
    joinNl [mdH 3 (str "I need items and attributes"),
      str "Format: compare: item1, item2 | price, battery, camera"]
  else
    joinNl [mdH 2 (str "Comparison"),
      mdTable (str "Item" :: pr.2)
        (pr.1.map (fun it => it :: List.replicate pr.2.length (str "—")))]

/-- `respond_rank` from the source. -/
def respond_rank (user : List Char) : List Char :=
  let items := (((pySplitLast user (str "rank:")).splitOn ',').map pyStrip).filter (· ≠ [])
  if items = [] then
    joinNl [mdH 3 (str "I need items"), str "Format: rank: item1, item2, item3"]
  else
    joinNl [mdH 2 (str "Ranking"),
      mdTable [str "Rank", str "Item"]
        ((rank_items items).enum.map (fun p => [natStr (p.1 + 1), p.2]))]

/-- `respond` from the source: dispatch on the detected intent, with the
chat responder as the fallback.  Neither `respond` nor the REPL loop around
it installs an exception handler, so an exception propagating out of
`respond_math` terminates the process (`none`); every other branch always
returns text. -/
def respond (user : List Char) : Option (List Char) :=
  let intent := detect_intent user
  if intent = str "math" then respond_math user
  else if intent = str "compare" then some (respond_compare user)
  else if intent = str "rank" then some (respond_rank user)
  else if intent = str "explain" then some (respond_explain user)
  else if intent = str "summarize" then some (respond_summarize user)
  else if intent = str "brainstorm" then some (respond_brainstorm user)
  else some (respond_chat user)

/-- Two nonempty candidate prefixes with distinct head characters cannot both
be prefixes of the same list: when the second holds, the boolean test for the
first is `false`. -/
theorem isPrefixOf_false_of_head_ne (p : List Char) {q t : List Char}
    (hq : q <+: t) (hne : p.head? ≠ q.head?) (hp : p ≠ []) (hqn : q ≠ []) :
    (p.isPrefixOf t) = false := by
  rw [Bool.eq_false_iff]
  intro hcontra
  rcases List.exists_cons_of_ne_nil hp with ⟨a, p2, rfl⟩
  rcases List.exists_cons_of_ne_nil hqn with ⟨c, q2, rfl⟩
  rcases List.isPrefixOf_iff_prefix.mp hcontra with ⟨r1, rfl⟩
  rcases hq with ⟨r2, heq⟩
  rw [List.cons_append, List.cons_append] at heq
  exact hne (by rw [List.head?_cons, List.head?_cons, List.head_eq_of_cons_eq heq])

/-- **C1.** For every input string whose trimmed, lowercased form starts with
one of the six prefixes `math:`, `compare:`, `rank:`, `explain:`,
`summarize:`, `brainstorm:`, `detect_intent` returns the corresponding tag,
and for every other input it returns `chat`. -/
theorem detect_intent_prefix_dispatch (s : List Char) :
    (∀ p tag, (p, tag) ∈ intentTable →
      p <+: pyLower (pyStrip s) → detect_intent s = tag) ∧
    ((∀ p tag, (p, tag) ∈ intentTable →
      ¬ p <+: pyLower (pyStrip s)) → detect_intent s = str "chat") := by
  constructor
  · intro p tag hmem hpre
    simp only [intentTable, List.mem_cons, List.not_mem_nil, or_false,
      Prod.mk.injEq] at hmem
    rcases hmem with ⟨hp, ht⟩ | ⟨hp, ht⟩ | ⟨hp, ht⟩ | ⟨hp, ht⟩ | ⟨hp, ht⟩ | ⟨hp, ht⟩ <;>
        subst hp <;> subst ht
    · have hown : ((str "math:").isPrefixOf (pyLower (pyStrip s))) = true := by
        rw [List.isPrefixOf_iff_prefix]; exact hpre
      simp [detect_intent, hown]
    · have hown : ((str "compare:").isPrefixOf (pyLower (pyStrip s))) = true := by
        rw [List.isPrefixOf_iff_prefix]; exact hpre
      simp [detect_intent, hown,
        isPrefixOf_false_of_head_ne (str "math:") hpre (by decide) (by decide) (by decide)]
    · have hown : ((str "rank:").isPrefixOf (pyLower (pyStrip s))) = true := by
        rw [List.isPrefixOf_iff_prefix]; exact hpre
      simp [detect_intent, hown,
        isPrefixOf_false_of_head_ne (str "math:") hpre (by decide) (by decide) (by decide),
        isPrefixOf_false_of_head_ne (str "compare:") hpre (by decide) (by decide) (by decide)]
    · have hown : ((str "explain:").isPrefixOf (pyLower (pyStrip s))) = true := by
        rw [List.isPrefixOf_iff_prefix]; exact hpre
      simp [detect_intent, hown,
        isPrefixOf_false_of_head_ne (str "math:") hpre (by decide) (by decide) (by decide),
        isPrefixOf_false_of_head_ne (str "compare:") hpre (by decide) (by decide) (by decide),
        isPrefixOf_false_of_head_ne (str "rank:") hpre (by decide) (by decide) (by decide)]
    · have hown : ((str "summarize:").isPrefixOf (pyLower (pyStrip s))) = true := by
        rw [List.isPrefixOf_iff_prefix]; exact hpre
      simp [detect_intent, hown,
        isPrefixOf_false_of_head_ne (str "math:") hpre (by decide) (by decide) (by decide),
        isPrefixOf_false_of_head_ne (str "compare:") hpre (by decide) (by decide) (by decide),
        isPrefixOf_false_of_head_ne (str "rank:") hpre (by decide) (by decide) (by decide),
        isPrefixOf_false_of_head_ne (str "explain:") hpre (by decide) (by decide) (by decide)]
    · have hown : ((str "brainstorm:").isPrefixOf (pyLower (pyStrip s))) = true := by
        rw [List.isPrefixOf_iff_prefix]; exact hpre
      simp [detect_intent, hown,
        isPrefixOf_false_of_head_ne (str "math:") hpre (by decide) (by decide) (by decide),
        isPrefixOf_false_of_head_ne (str "compare:") hpre (by decide) (by decide) (by decide),
        isPrefixOf_false_of_head_ne (str "rank:") hpre (by decide) (by decide) (by decide),
        isPrefixOf_false_of_head_ne (str "explain:") hpre (by decide) (by decide) (by decide),
        isPrefixOf_false_of_head_ne (str "summarize:") hpre (by decide) (by decide) (by decide)]
  · intro hnone
    have hb : ∀ p tag, (p, tag) ∈ intentTable →
        (p.isPrefixOf (pyLower (pyStrip s))) = false := by
      intro p tag hmem
      rw [Bool.eq_false_iff]
      intro hc
      exact hnone p tag hmem (List.isPrefixOf_iff_prefix.mp hc)
    simp [detect_intent,
      hb (str "math:") (str "math") (by simp [intentTable]),
      hb (str "compare:") (str "compare") (by simp [intentTable]),
      hb (str "rank:") (str "rank") (by simp [intentTable]),
      hb (str "explain:") (str "explain") (by simp [intentTable]),
      hb (str "summarize:") (str "summarize") (by simp [intentTable]),
      hb (str "brainstorm:") (str "brainstorm") (by simp [intentTable])]

/-- Witness for C1 at a concrete input: `"  MATH: 1+1"` is detected as
`math`, and `"hello"` falls back to `chat`. -/
theorem detect_intent_prefix_dispatch_witness :
    detect_intent (str "  MATH: 1+1") = str "math" ∧
    detect_intent (str "hello") = str "chat" :=
  ⟨(detect_intent_prefix_dispatch (str "  MATH: 1+1")).1 (str "math:") (str "math")
      (by decide) (by decide),
   (detect_intent_prefix_dispatch (str "hello")).2 (by
      intro p tag hmem
      simp only [intentTable, List.mem_cons, List.not_mem_nil, or_false,
        Prod.mk.injEq] at hmem
      rcases hmem with ⟨hp, ht⟩ | ⟨hp, ht⟩ | ⟨hp, ht⟩ | ⟨hp, ht⟩ | ⟨hp, ht⟩ | ⟨hp, ht⟩ <;>
        subst hp <;> decide)⟩

/-- **C6.** In the chat fallback the guard stages short-circuit in order: a
harmful input gets the refusal template regardless of the medical check, a
non-harmful medical input gets the medical disclaimer, and the two templates
are distinct — so an input matching both pattern lists gets the refusal, not
the disclaimer. -/
theorem respond_chat_guard_order (u : List Char) :
    (is_harmful u = true → respond_chat u = refusalReply) ∧
    (is_harmful u = false → is_medical u = true → respond_chat u = medicalReply) ∧
    refusalReply ≠ medicalReply := by
  refine ⟨fun hh => ?_, fun hh hm => ?_, by decide⟩
  · simp [respond_chat, hh]
  · simp [respond_chat, hh, hm]

/-- Witness for C6 at the concrete input `"bomb dose"`, which matches both a
harmful pattern and a medical pattern yet gets the refusal template. -/
theorem respond_chat_guard_order_witness :
    is_harmful (str "bomb dose") = true ∧ is_medical (str "bomb dose") = true ∧
    respond_chat (str "bomb dose") = refusalReply :=
  ⟨by decide, by decide, (respond_chat_guard_order (str "bomb dose")).1 (by decide)⟩

/-- **C2 (counterexample).** The claim says boolean literals are rejected
with the error note and no numeric value, but `evaluate("True")` succeeds
with value `1.0`: `bool` is a subclass of `int` and passes the `Constant`
check. -/
theorem bool_literal_accepted_cex :
    math_calculate (str "True") ≠ (errNote, none) ∧
    (math_calculate (str "True")).2 = some 1 ∧
    safe_eval_expr (.konst (.cbool true)) = some (.vbool true) := by
  refine ⟨?_, by decide, rfl⟩
  intro hcontra
  have h2 : (math_calculate (str "True")).2 = some 1 := by decide
  rw [hcontra] at h2
  exact absurd h2 (by decide)

/-- **C2 (amended).** Every expression whose top node is outside the
literal/operator allow-list — identifiers, attribute or index access, calls,
comparisons, boolean operations, comprehensions, string literals, `None` —
is rejected by `safe_eval_expr`, and `evaluate("import os")` and
`evaluate("1 and 2")` produce the fixed note with no value; boolean
literals, however, are accepted (as `1`/`0`), since Python's `bool` is a
subclass of `int`. -/
theorem safe_eval_rejects_nonarith (e : PyExpr) (hr : rejectedNode e = true) :
    safe_eval_expr e = none ∧
    math_calculate (str "import os") = (errNote, none) ∧
    math_calculate (str "1 and 2") = (errNote, none) ∧
    (math_calculate (str "True")).2 = some 1 := by
  refine ⟨?_, by decide, by decide, by decide⟩
  cases e with
  | konst c =>
    cases c with
    | cint n => exact absurd hr (by simp [rejectedNode])
    | cfloat q => exact absurd hr (by simp [rejectedNode])
    | cbool b => exact absurd hr (by simp [rejectedNode])
    | cstr s => rfl
    | cnone => rfl
  | binop op l r => exact absurd hr (by simp [rejectedNode])
  | unaryop op e2 => exact absurd hr (by simp [rejectedNode])
  | name id => rfl
  | boolop op vs => rfl
  | compare l op r => rfl
  | call f args => rfl
  | attrGet e2 a => rfl
  | subscript e2 i => rfl
  | listcomp e2 => rfl

/-- Witness for C2 at a concrete rejected node, `ast.Name("os")`. -/
theorem safe_eval_rejects_nonarith_witness :
    safe_eval_expr (.name (str "os")) = none ∧
    (math_calculate (str "1 and 2")).2 = none := by
  have h := safe_eval_rejects_nonarith (.name (str "os")) (by rfl)
  exact ⟨h.1, by rw [h.2.2.1]⟩

/-- **C3.** The evaluator computes standard arithmetic: `2+3*4` is `14`,
`(1+2)**3` is `27`, `7//2` is `3`, `7%2` is `1`; moreover `//` and `%`
follow the floor convention on negatives (`-7//2` is `-4`, `-7%2` is `1`)
and `**` supports a negative exponent (`2**-1` is `0.5`). -/
theorem math_calculate_examples :
    (math_calculate (str "2+3*4")).2 = some 14 ∧
    (math_calculate (str "(1+2)**3")).2 = some 27 ∧
    (math_calculate (str "7//2")).2 = some 3 ∧
    (math_calculate (str "7%2")).2 = some 1 ∧
    (math_calculate (str "-7//2")).2 = some (-4) ∧
    (math_calculate (str "-7%2")).2 = some 1 ∧
    (math_calculate (str "2**-1")).2 = some (1 / 2) := by
  refine ⟨by decide, by decide, by decide, by decide, by decide, by decide, ?_⟩
  have h : (math_calculate (str "2**-1")).2 = some (((2 : Int) : ℚ) ^ (-1 : Int)) := rfl
  rw [h]
  norm_num

/-- **C4.** `solve_linear` computes `x = (c - b) / a` with the documented
coefficient defaults: `2x+3=11` gives `x = 4`, `x-5=10` gives `x = 15`,
`3x=12` gives `x = 4`, `0x=5` hits the zero-division note; `-x` and `+x`
exercise the lone-sign defaults. -/
theorem solve_linear_examples :
    solveLinearR (str "2x+3=11") = .solved 2 3 11 4 ∧
    solveLinearR (str "x-5=10") = .solved 1 (-5) 10 15 ∧
    solveLinearR (str "3x=12") = .solved 3 0 12 4 ∧
    solveLinearR (str "0x=5") = .zeroCoef ∧
    solve_linear (str "0x=5") = some solveZeroNote ∧
    solveLinearR (str "-x=3") = .solved (-1) 0 3 (-3) ∧
    solveLinearR (str "+x=2") = .solved 1 0 2 2 := by
  refine ⟨?_, ?_, ?_, by decide, by decide, ?_, ?_⟩
  · have h : solveLinearR (str "2x+3=11") =
        .solved 2 3 11 ((((11 : Int) : ℚ) - ((3 : Int) : ℚ)) / ((2 : Int) : ℚ)) := rfl
    rw [h]; norm_num
  · have h : solveLinearR (str "x-5=10") =
        .solved 1 (-5) 10 ((((10 : Int) : ℚ) - (((-5) : Int) : ℚ)) / ((1 : Int) : ℚ)) := rfl
    rw [h]; norm_num
  · have h : solveLinearR (str "3x=12") =
        .solved 3 0 12 ((((12 : Int) : ℚ) - ((0 : Int) : ℚ)) / ((3 : Int) : ℚ)) := rfl
    rw [h]; norm_num
  · have h : solveLinearR (str "-x=3") =
        .solved (-1) 0 3 ((((3 : Int) : ℚ) - ((0 : Int) : ℚ)) / (((-1) : Int) : ℚ)) := rfl
    rw [h]; norm_num
  · have h : solveLinearR (str "+x=2") =
        .solved 1 0 2 ((((2 : Int) : ℚ) - ((0 : Int) : ℚ)) / ((1 : Int) : ℚ)) := rfl
    rw [h]; norm_num

/-- The decimal literal `floatMaxNat` is the claimed power difference. -/
theorem floatMaxNat_eq : floatMaxNat = 2 ^ 1024 - 2 ^ 970 := by
  unfold floatMaxNat
  norm_num

set_option maxRecDepth 8000 in
/-- **C9.** The claim that every failure path of `math_calculate` and
`solve_linear` is recovered and rendered as ordinary text fails on the
code: on the equation `x=1` followed by 400 zeros, the right-hand side
parses as the integer `10 ^ 400` and the division `(c - b) / a` raises
`OverflowError` — the `try` around it catches only `ZeroDivisionError`, and
neither `respond` nor the REPL loop installs a handler, so the exception
terminates the process instead of becoming a note (the REPL line
`math: solve x=1<400 zeros>` reaches this path, third conjunct).
`math_calculate`, by contrast, catches everything: the out-of-float-range
`10**309` comes back as the fixed note (last conjunct). -/
theorem solve_linear_uncaught_overflow :
    (∃ c : Int, solveLinearR (str "x=1" ++ List.replicate 400 '0') =
        SolveOutcome.overflowed 1 0 c ∧ (floatMaxNat : Int) ≤ c) ∧
    solve_linear (str "x=1" ++ List.replicate 400 '0') = none ∧
    respond (str "math: solve x=1" ++ List.replicate 400 '0') = none ∧
    math_calculate (str "10**309") = (errNote, none) := by
  refine ⟨⟨((natOfDigits (str "1" ++ List.replicate 400 '0') : Nat) : Int),
    by decide, by decide⟩, by decide, by decide, by decide⟩

/-- Splitting a list at the first element on which a boolean predicate
fails: when the predicate holds on all of the prefix and fails at the
distinguished element, `takeWhile`/`dropWhile` recover the decomposition. -/
theorem takeWhile_split_p {p : Char → Bool} {x : Char} (g1 g2 : List Char)
    (hx : p x = false) (hg : ∀ c ∈ g1, p c = true) :
    (g1 ++ x :: g2).takeWhile p = g1 ∧ (g1 ++ x :: g2).dropWhile p = x :: g2 := by
  induction g1 with
  | nil =>
    rw [List.nil_append]
    constructor
    · rw [List.takeWhile_cons, hx]; rfl
    · rw [List.dropWhile_cons, hx]; rfl
  | cons a tl ih =>
    have ha : p a = true := hg a (List.mem_cons_self a tl)
    have ih2 := ih (fun c hc => hg c (List.mem_cons_of_mem a hc))
    rw [List.cons_append]
    constructor
    · rw [List.takeWhile_cons, ha, if_pos rfl, ih2.1]
    · rw [List.dropWhile_cons, ha, if_pos rfl, ih2.2]

/-- A nonempty `dropWhile` residue starts with an element on which the
predicate fails. -/
theorem dropWhile_head_not {p : Char → Bool} {l : List Char}
    (hne : l.dropWhile p ≠ []) :
    ∃ c t, l.dropWhile p = c :: t ∧ p c = false := by
  induction l with
  | nil => simp at hne
  | cons a tl ih =>
    rw [List.dropWhile_cons] at hne ⊢
    by_cases hpa : p a = true
    · rw [if_pos hpa] at hne ⊢; exact ih hne
    · rw [if_neg hpa] at hne ⊢
      exact ⟨a, tl, rfl, Bool.eq_false_iff.mpr hpa⟩

/-- `coefOk` decides membership in the language of `[+-]?\d*`. -/
theorem coefOk_iff (g : List Char) : coefOk g = true ↔ SignDigitsStar g := by
  cases g with
  | nil =>
    simp only [coefOk, true_iff]
    exact ⟨[], [], Or.inl rfl, by simp, rfl⟩
  | cons c rest =>
    by_cases hs : isSignC c = true
    · have hc : c = '+' ∨ c = '-' := by simpa [isSignC] using hs
      simp only [coefOk, hs, if_pos]
      constructor
      · intro hall
        rcases hc with rfl | rfl
        · exact ⟨['+'], rest, Or.inr (Or.inl rfl), by simpa using hall, rfl⟩
        · exact ⟨['-'], rest, Or.inr (Or.inr rfl), by simpa using hall, rfl⟩
      · rintro ⟨s, ds, hsor, hds, heq⟩
        rcases hsor with rfl | rfl | rfl
        · rw [List.nil_append] at heq
          rcases hc with rfl | rfl
          · rw [← heq] at hds
            exact absurd (hds '+' (List.mem_cons_self _ _)) (by decide)
          · rw [← heq] at hds
            exact absurd (hds '-' (List.mem_cons_self _ _)) (by decide)
        · simp only [List.cons_append, List.nil_append, List.cons.injEq] at heq
          rcases heq with ⟨rfl, rfl⟩
          simpa using hds
        · simp only [List.cons_append, List.nil_append, List.cons.injEq] at heq
          rcases heq with ⟨rfl, rfl⟩
          simpa using hds
    · have hsf : isSignC c = false := by revert hs; cases isSignC c <;> simp
      have hc : ¬ (c = '+' ∨ c = '-') := by
        intro h
        rcases h with rfl | rfl <;> exact absurd hsf (by decide)
      simp only [coefOk, hsf, Bool.false_eq_true, if_false]
      constructor
      · intro hall
        exact ⟨[], c :: rest, Or.inl rfl, by simpa using hall, rfl⟩
      · rintro ⟨s, ds, hsor, hds, heq⟩
        rcases hsor with rfl | rfl | rfl
        · rw [List.nil_append] at heq
          rw [heq]
          simpa using hds
        · simp only [List.cons_append, List.nil_append, List.cons.injEq] at heq
          exact absurd (Or.inl heq.1) hc
        · simp only [List.cons_append, List.nil_append, List.cons.injEq] at heq
          exact absurd (Or.inr heq.1) hc

/-- `constOk` decides the language of `([+-]\d+)?`. -/
theorem constOk_iff (g : List Char) : constOk g = true ↔ (g = [] ∨ SignDigitsPlus g) := by
  cases g with
  | nil => simp [constOk]
  | cons c rest =>
    simp only [constOk, Bool.and_eq_true, Bool.not_eq_true']
    constructor
    · rintro ⟨⟨hsign, hne⟩, hall⟩
      right
      have hc : c = '+' ∨ c = '-' := by simpa [isSignC] using hsign
      rcases hc with rfl | rfl
      · exact ⟨['+'], rest, Or.inl rfl, by simpa [List.isEmpty_iff] using hne,
          by simpa using hall, rfl⟩
      · exact ⟨['-'], rest, Or.inr rfl, by simpa [List.isEmpty_iff] using hne,
          by simpa using hall, rfl⟩
    · rintro (hnil | ⟨s, ds, hsor, hdne, hds, heq⟩)
      · cases hnil
      · rcases hsor with rfl | rfl <;>
          (simp only [List.cons_append, List.nil_append, List.cons.injEq] at heq
           rcases heq with ⟨rfl, rfl⟩
           refine ⟨⟨by decide, by simpa [List.isEmpty_iff] using hdne⟩, by simpa using hds⟩)

/-- The solver's regex match succeeds exactly on left sides of the documented
form (the literal `x` it matches is necessarily the first `x` of the
string). -/
theorem matchLeft_ne_none_iff (l : List Char) : matchLeft l ≠ none ↔ LeftForm l := by
  constructor
  · intro hne
    by_cases hx : 'x' ∈ l
    · have hdne : l.dropWhile (· ≠ 'x') ≠ [] := by
        intro hnil
        have := List.dropWhile_eq_nil_iff.mp hnil 'x' hx
        simp at this
      rcases dropWhile_head_not hdne with ⟨c, t, ht, hpc⟩
      have hcx : c = 'x' := by simpa using hpc
      subst hcx
      have hsplit : l = l.takeWhile (· ≠ 'x') ++ 'x' :: t := by
        conv_lhs => rw [← List.takeWhile_append_dropWhile
          (p := fun c => decide (c ≠ 'x')) (l := l)]
        rw [ht]
      have hsuf : (l.dropWhile (· ≠ 'x')).tail = t := by rw [ht]; rfl
      by_cases hok : (coefOk (l.takeWhile (· ≠ 'x')) &&
          constOk ((l.dropWhile (· ≠ 'x')).tail)) = true
      · have hok2 := hok
        rw [Bool.and_eq_true] at hok2
        rw [hsuf] at hok2
        exact ⟨l.takeWhile (· ≠ 'x'), t, (coefOk_iff _).mp hok2.1,
          (constOk_iff _).mp hok2.2, hsplit⟩
      · exact absurd (by unfold matchLeft; rw [if_pos hx, if_neg hok]) hne
    · exact absurd (by unfold matchLeft; rw [if_neg hx]) hne
  · rintro ⟨g1, g2, hstar, hg2, rfl⟩
    have hg1x : ∀ c ∈ g1, (decide (c ≠ 'x')) = true := by
      rcases hstar with ⟨s, ds, hsor, hds, rfl⟩
      intro c hc
      rcases List.mem_append.mp hc with hcs | hcd
      · rcases hsor with rfl | rfl | rfl
        · cases hcs
        · rcases List.mem_singleton.mp hcs with rfl; decide
        · rcases List.mem_singleton.mp hcs with rfl; decide
      · have hcd2 := hds c hcd
        simp only [decide_eq_true_eq]
        intro he; subst he; exact absurd hcd2 (by decide)
    have hsp := takeWhile_split_p (p := fun c => decide (c ≠ 'x')) (x := 'x')
      g1 g2 (by simp) hg1x
    have hg1ok : coefOk g1 = true := (coefOk_iff g1).mpr hstar
    have hg2ok : constOk g2 = true := (constOk_iff g2).mpr hg2
    unfold matchLeft
    rw [if_pos (show 'x' ∈ g1 ++ 'x' :: g2 by simp), hsp.1, hsp.2]
    simp [hg1ok, hg2ok]

/-- **C5.** `solve_linear` reports a format failure exactly at the three
documented points — no `=` in the despaced equation, a left side outside the
pattern `optional signed integer coefficient, literal x, optional signed
integer constant`, or a right side `int()` rejects — each rendered as its
own distinct corrective note (returned, never raised). -/
theorem solve_linear_format_errors (eq0 : List Char) :
    (solveLinearR eq0 = .noEquals ↔ '=' ∉ eq0.filter (· ≠ ' ')) ∧
    (solveLinearR eq0 = .badLeft ↔
      ('=' ∈ eq0.filter (· ≠ ' ') ∧
        ¬ LeftForm ((eq0.filter (· ≠ ' ')).takeWhile (· ≠ '=')))) ∧
    (solveLinearR eq0 = .badRight ↔
      ('=' ∈ eq0.filter (· ≠ ' ') ∧
        LeftForm ((eq0.filter (· ≠ ' ')).takeWhile (· ≠ '=')) ∧
        pyIntParse (((eq0.filter (· ≠ ' ')).dropWhile (· ≠ '=')).tail) = none)) ∧
    (solveLinearR eq0 = .noEquals → solve_linear eq0 = some solveNoEqNote) ∧
    (solveLinearR eq0 = .badLeft → solve_linear eq0 = some solveBadLeftNote) ∧
    (solveLinearR eq0 = .badRight → solve_linear eq0 = some solveBadRightNote) ∧
    (solveNoEqNote ≠ solveBadLeftNote ∧ solveNoEqNote ≠ solveBadRightNote ∧
      solveBadLeftNote ≠ solveBadRightNote) := by
  have main : (solveLinearR eq0 = .noEquals ↔ '=' ∉ eq0.filter (· ≠ ' ')) ∧
      (solveLinearR eq0 = .badLeft ↔
        ('=' ∈ eq0.filter (· ≠ ' ') ∧
          ¬ LeftForm ((eq0.filter (· ≠ ' ')).takeWhile (· ≠ '=')))) ∧
      (solveLinearR eq0 = .badRight ↔
        ('=' ∈ eq0.filter (· ≠ ' ') ∧
          LeftForm ((eq0.filter (· ≠ ' ')).takeWhile (· ≠ '=')) ∧
          pyIntParse (((eq0.filter (· ≠ ' ')).dropWhile (· ≠ '=')).tail) = none)) := by
    by_cases hm : '=' ∈ eq0.filter (· ≠ ' ')
    · rcases hml : matchLeft ((eq0.filter (· ≠ ' ')).takeWhile (· ≠ '=')) with _ | ⟨g1, g2⟩
      · have hout : solveLinearR eq0 = .badLeft := by
          simp only [solveLinearR]
          rw [if_pos hm, hml]
        have hnl : ¬ LeftForm ((eq0.filter (· ≠ ' ')).takeWhile (· ≠ '=')) := by
          intro hlf
          exact (matchLeft_ne_none_iff _).mpr hlf hml
        exact ⟨iff_of_false (by rw [hout]; simp) (not_not_intro hm),
          iff_of_true hout ⟨hm, hnl⟩,
          iff_of_false (by rw [hout]; simp) (fun hr => hnl hr.2.1)⟩
      · have hne : matchLeft ((eq0.filter (· ≠ ' ')).takeWhile (· ≠ '=')) ≠ none := by
          rw [hml]; simp
        have hlf := (matchLeft_ne_none_iff _).mp hne
        have hbase : solveLinearR eq0 =
            solveFrom g1 g2 (pyIntParse (((eq0.filter (· ≠ ' ')).dropWhile (· ≠ '=')).tail)) := by
          simp only [solveLinearR]
          rw [if_pos hm, hml]
        rcases hip : pyIntParse (((eq0.filter (· ≠ ' ')).dropWhile (· ≠ '=')).tail)
            with _ | c
        · have hout : solveLinearR eq0 = .badRight := by rw [hbase, hip]; rfl
          exact ⟨iff_of_false (by rw [hout]; simp) (not_not_intro hm),
            iff_of_false (by rw [hout]; simp) (fun hr => hr.2 hlf),
            iff_of_true hout ⟨hm, hlf, rfl⟩⟩
        · have key : ∀ (a b : Int) (q : ℚ),
              (if a = 0 then SolveOutcome.zeroCoef
                else if floatMaxNat * a.natAbs ≤ (c - b).natAbs then
                  SolveOutcome.overflowed a b c
                else SolveOutcome.solved a b c q) ≠
                SolveOutcome.noEquals ∧
              (if a = 0 then SolveOutcome.zeroCoef
                else if floatMaxNat * a.natAbs ≤ (c - b).natAbs then
                  SolveOutcome.overflowed a b c
                else SolveOutcome.solved a b c q) ≠
                SolveOutcome.badLeft ∧
              (if a = 0 then SolveOutcome.zeroCoef
                else if floatMaxNat * a.natAbs ≤ (c - b).natAbs then
                  SolveOutcome.overflowed a b c
                else SolveOutcome.solved a b c q) ≠
                SolveOutcome.badRight := by
            intro a b q
            by_cases ha : a = 0
            · simp [ha]
            · by_cases hov : floatMaxNat * a.natAbs ≤ (c - b).natAbs <;>
                simp [ha, hov]
          have hno : solveFrom g1 g2 (some c) ≠ .noEquals := by
            simp only [solveFrom]
            exact (key _ _ _).1
          have hbl : solveFrom g1 g2 (some c) ≠ .badLeft := by
            simp only [solveFrom]
            exact (key _ _ _).2.1
          have hbr : solveFrom g1 g2 (some c) ≠ .badRight := by
            simp only [solveFrom]
            exact (key _ _ _).2.2
          have hout : solveLinearR eq0 = solveFrom g1 g2 (some c) := by
            rw [hbase, hip]
          exact ⟨iff_of_false (fun hh => hno (hout.symm.trans hh)) (not_not_intro hm),
            iff_of_false (fun hh => hbl (hout.symm.trans hh)) (fun hr => hr.2 hlf),
            iff_of_false (fun hh => hbr (hout.symm.trans hh))
              (fun hr => Option.noConfusion hr.2.2)⟩
    · have hout : solveLinearR eq0 = .noEquals := by
        simp only [solveLinearR]
        rw [if_neg hm]
      exact ⟨iff_of_true hout hm,
        iff_of_false (by rw [hout]; simp) (fun hr => hm hr.1),
        iff_of_false (by rw [hout]; simp) (fun hr => hm hr.1)⟩
  exact ⟨main.1, main.2.1, main.2.2,
    fun hh => by simp [solve_linear, hh],
    fun hh => by simp [solve_linear, hh],
    fun hh => by simp [solve_linear, hh],
    by decide, by decide, by decide⟩

/-- Witness for C5 at the spec's example `"2x+3"` (no `=`): the missing-`=`
note, with no derivation. -/
theorem solve_linear_format_errors_witness :
    solveLinearR (str "2x+3") = .noEquals ∧
    solve_linear (str "2x+3") = some solveNoEqNote := by
  have h := solve_linear_format_errors (str "2x+3")
  have h1 : solveLinearR (str "2x+3") = .noEquals := h.1.mpr (by decide)
  exact ⟨h1, h.2.2.2.1 h1⟩

/-- Inverting the lowercase map: either the character was fixed, or the pair
is in the table. -/
theorem pyLowerC_preim {c x : Char} (hx : pyLowerC c = x) :
    c = x ∨ (c, x) ∈ lowerTable := by
  unfold pyLowerC at hx
  cases hf : lowerTable.find? (fun p => p.1 = c) with
  | none =>
    rw [hf] at hx
    exact Or.inl (by simpa using hx)
  | some p =>
    rw [hf] at hx
    have hmem := List.mem_of_find?_eq_some hf
    have hpc : p.1 = c := by simpa using List.find?_some hf
    have hx2 : p.2 = x := by simpa using hx
    right
    rw [← hpc, ← hx2]
    simpa using hmem

/-- Preimage of `m` under the lowercase map. -/
theorem pyLowerC_eq_m {c : Char} (hx : pyLowerC c = 'm') : c = 'm' ∨ c = 'M' := by
  rcases pyLowerC_preim hx with h | h
  · exact Or.inl h
  · simp [lowerTable, Prod.ext_iff] at h
    exact Or.inr h

/-- Preimage of `a` under the lowercase map. -/
theorem pyLowerC_eq_a {c : Char} (hx : pyLowerC c = 'a') : c = 'a' ∨ c = 'A' := by
  rcases pyLowerC_preim hx with h | h
  · exact Or.inl h
  · simp [lowerTable, Prod.ext_iff] at h
    exact Or.inr h

/-- Preimage of `t` under the lowercase map. -/
theorem pyLowerC_eq_t {c : Char} (hx : pyLowerC c = 't') : c = 't' ∨ c = 'T' := by
  rcases pyLowerC_preim hx with h | h
  · exact Or.inl h
  · simp [lowerTable, Prod.ext_iff] at h
    exact Or.inr h

/-- Preimage of `h` under the lowercase map. -/
theorem pyLowerC_eq_h {c : Char} (hx : pyLowerC c = 'h') : c = 'h' ∨ c = 'H' := by
  rcases pyLowerC_preim hx with h | h
  · exact Or.inl h
  · simp [lowerTable, Prod.ext_iff] at h
    exact Or.inr h

/-- The colon is not produced by lowering any other character. -/
theorem pyLowerC_eq_colon {c : Char} (hx : pyLowerC c = ':') : c = ':' := by
  rcases pyLowerC_preim hx with h | h
  · exact h
  · simp [lowerTable, Prod.ext_iff] at h

/-- A hit of `findSub` is an occurrence: the needle is an infix. -/
theorem infix_of_findSub {s sub : List Char} {i : Nat}
    (h : findSub s sub = some i) : sub <:+: s := by
  unfold findSub at h
  have hp := List.find?_some h
  have hpre := List.isPrefixOf_iff_prefix.mp hp
  exact List.infix_iff_prefix_suffix.mpr ⟨s.drop i, hpre, List.drop_suffix i s⟩

/-- One tokenizer step on an identifier-start character: the three guards
before the identifier branch are off, so the scanner takes the maximal
identifier run and recurses on the remainder. -/
theorem tokenize_ident_step (fuel : Nat) (c : Char) (cs : List Char)
    (h1 : ¬ (c = ' ' ∨ c = '\t')) (h2 : ¬ (c.isDigit = true))
    (h3 : ¬ (c = '.')) (h4 : isIdentStart c = true) :
    tokenize (fuel + 1) (c :: cs) =
      (tokenize fuel ((c :: cs).dropWhile isIdentChar)).map
        (classifyIdent ((c :: cs).takeWhile isIdentChar) :: ·) := by
  simp only [tokenize, scanTok]
  rw [if_neg h1, if_neg h2, if_neg h3, if_pos h4]
  rfl

/-- If `detect_intent` answers `math`, the trimmed lowercased input really
starts with `math:` (the only branch returning that tag). -/
theorem detect_intent_math_prefix {u : List Char}
    (hm : detect_intent u = str "math") :
    (str "math:") <+: pyLower (pyStrip u) := by
  by_cases h1 : ((str "math:").isPrefixOf (pyLower (pyStrip u))) = true
  · exact List.isPrefixOf_iff_prefix.mp h1
  · exfalso
    simp only [detect_intent] at hm
    rw [Bool.not_eq_true] at h1
    rw [h1] at hm
    simp only [Bool.false_eq_true, if_false] at hm
    repeat
      first
        | exact absurd hm (by decide)
        | split at hm

/-- **C10.** Intent classification lowercases a copy, but `respond_math`
splits the original input on the lowercase literal `"math:"`; for every
input classified as math intent that does not contain the lowercase
substring `"math:"`, the split is a no-op — the entire raw line (stripped)
reaches `math_calculate` — and the reply is the unsupported-expression note
rather than the value of the expression after the prefix. -/
theorem respond_math_case_mismatch (u : List Char)
    (hm : detect_intent u = str "math")
    (hn : ¬ (str "math:") <:+: u) :
    pySplitLast u (str "math:") = u ∧
    respond_math u = some (joinNl [mdH 2 (str "Computation"), errNote]) := by
  have hfind : findSub u (str "math:") = none := by
    cases hfs : findSub u (str "math:") with
    | none => rfl
    | some i => exact absurd (infix_of_findSub hfs) hn
  have hsplit : pySplitLast u (str "math:") = u := by
    unfold pySplitLast
    rw [hfind]
  refine ⟨hsplit, ?_⟩
  obtain ⟨k, hk⟩ := detect_intent_math_prefix hm
  rw [show str "math:" = ['m', 'a', 't', 'h', ':'] from by decide] at hk
  simp only [List.cons_append, List.nil_append] at hk
  rcases hu : pyStrip u with _ | ⟨c0, _ | ⟨c1, _ | ⟨c2, _ | ⟨c3, _ | ⟨c4, rest⟩⟩⟩⟩⟩
  all_goals rw [hu] at hk
  all_goals simp [pyLower] at hk
  obtain ⟨hm0, hm1, hm2, hm3, hm4, _⟩ := hk
  have hc0 := pyLowerC_eq_m hm0.symm
  have hc1 := pyLowerC_eq_a hm1.symm
  have hc2 := pyLowerC_eq_t hm2.symm
  have hc3 := pyLowerC_eq_h hm3.symm
  have hc4 : c4 = ':' := pyLowerC_eq_colon hm4.symm
  subst hc4
  have hc0ws : ¬ (c0 = ' ' ∨ c0 = '\t') := by rcases hc0 with rfl | rfl <;> decide
  have hc0d : ¬ (c0.isDigit = true) := by rcases hc0 with rfl | rfl <;> decide
  have hc0dot : ¬ (c0 = '.') := by rcases hc0 with rfl | rfl <;> decide
  have hc0i : isIdentStart c0 = true := by rcases hc0 with rfl | rfl <;> decide
  have hc0ic : isIdentChar c0 = true := by rcases hc0 with rfl | rfl <;> decide
  have hc0s : c0 ≠ 's' := by rcases hc0 with rfl | rfl <;> decide
  have hc1ic : isIdentChar c1 = true := by rcases hc1 with rfl | rfl <;> decide
  have hc2ic : isIdentChar c2 = true := by rcases hc2 with rfl | rfl <;> decide
  have hc3ic : isIdentChar c3 = true := by rcases hc3 with rfl | rfl <;> decide
  have hsp := takeWhile_split_p (p := isIdentChar) (x := ':')
    [c0, c1, c2, c3] rest (by decide)
    (by
      intro c hc
      simp only [List.mem_cons, List.not_mem_nil, or_false] at hc
      rcases hc with rfl | rfl | rfl | rfl
      exacts [hc0ic, hc1ic, hc2ic, hc3ic])
  have hsp1 : ((c0 :: c1 :: c2 :: c3 :: ':' :: rest).takeWhile isIdentChar) =
      [c0, c1, c2, c3] := by simpa using hsp.1
  have hsp2 : ((c0 :: c1 :: c2 :: c3 :: ':' :: rest).dropWhile isIdentChar) =
      ':' :: rest := by simpa using hsp.2
  have hnone : tokenize (rest.length + 5) (':' :: rest) = none := rfl
  have htok : tokenize (rest.length + 6) (c0 :: c1 :: c2 :: c3 :: ':' :: rest) = none := by
    show tokenize (rest.length + 5 + 1) (c0 :: c1 :: c2 :: c3 :: ':' :: rest) = none
    rw [tokenize_ident_step (rest.length + 5) c0 (c1 :: c2 :: c3 :: ':' :: rest)
      hc0ws hc0d hc0dot hc0i]
    rw [hsp2, hnone]
    rfl
  have htok2 : pyTokenize (pyStrip u) = none := by
    unfold pyTokenize
    rw [hu]
    show tokenize (rest.length + 6) (c0 :: c1 :: c2 :: c3 :: ':' :: rest) = none
    exact htok
  have hparse : pyParseExpr (pyStrip u) = none := by
    unfold pyParseExpr
    rw [htok2]
  have hmc : math_calculate (pyStrip u) = (errNote, none) := by
    unfold math_calculate
    rw [hparse]
  have hsolve : ((str "solve").isPrefixOf (pyStrip u)) = false := by
    rw [Bool.eq_false_iff]
    intro hcon
    rcases List.isPrefixOf_iff_prefix.mp hcon with ⟨r2, hr2⟩
    rw [show str "solve" = ['s', 'o', 'l', 'v', 'e'] from by decide] at hr2
    rw [hu] at hr2
    simp only [List.cons_append, List.cons.injEq] at hr2
    exact hc0s hr2.1.symm
  simp only [respond_math]
  rw [hsplit]
  rw [hsolve]
  simp only [Bool.false_eq_true, if_false]
  rw [hmc]

/-- Witness for C10 at `"MATH: 2+2"`: the whole line reaches the evaluator,
which answers with the note instead of `4`. -/
theorem respond_math_case_mismatch_witness :
    pySplitLast (str "MATH: 2+2") (str "math:") = str "MATH: 2+2" ∧
    respond_math (str "MATH: 2+2") = some (joinNl [mdH 2 (str "Computation"), errNote]) :=
  respond_math_case_mismatch (str "MATH: 2+2") (by decide) (by decide)

/-- **C7 (counterexample).** `"math: bomb"` contains `"bomb"` but carries a
command prefix, so it is routed to the math builder and the reply is not the
refusal template: the harmful-content check does not fire "regardless of any
other content" at the dispatcher level. -/
theorem harmful_substring_not_refused_cex :
    strIn (str "bomb") (pyLower (str "math: bomb")) = true ∧
    respond (str "math: bomb") ≠ some refusalReply := by
  exact ⟨by decide, by decide⟩

/-- **C7 (amended).** Any input that falls through to the chat responder
(its trimmed lowercased form starts with none of the six command prefixes)
and contains `"suicide"`, `"bomb"` or `"weapon"` as a case-insensitive
substring gets the refusal template, regardless of its other content. -/
theorem harmful_substring_refusal (u : List Char)
    (hc : detect_intent u = str "chat")
    (hh : (strIn (str "suicide") (pyLower u) || strIn (str "bomb") (pyLower u) ||
      strIn (str "weapon") (pyLower u)) = true) :
    respond u = some refusalReply := by
  have hharm : is_harmful u = true := by
    simp only [Bool.or_eq_true] at hh
    simp only [is_harmful, Bool.or_eq_true]
    rcases hh with (h | h) | h
    · tauto
    · tauto
    · tauto
  simp only [respond]
  rw [hc]
  rw [if_neg (by decide), if_neg (by decide), if_neg (by decide),
    if_neg (by decide), if_neg (by decide), if_neg (by decide)]
  simp [respond_chat, hharm]

/-- Witness for C7 at `"bomb"`, a chat-routed harmful input. -/
theorem harmful_substring_refusal_witness :
    respond (str "bomb") = some refusalReply :=
  harmful_substring_refusal (str "bomb") (by decide) (by decide)

/-- **C8.** `rank_items` is a case-insensitive lexicographic sort and is
idempotent: sorting twice equals sorting once, the output is pairwise
ordered under the lowercased lexicographic order, and it is a permutation of
the input. -/
theorem rank_items_sort_idempotent (l : List (List Char)) :
    rank_items (rank_items l) = rank_items l ∧
    (rank_items l).Pairwise (fun a b => pyLower a ≤ pyLower b) ∧
    (rank_items l).Perm l := by
  have htrans : ∀ (a b c : List Char), decide (pyLower a ≤ pyLower b) = true →
      decide (pyLower b ≤ pyLower c) = true →
      decide (pyLower a ≤ pyLower c) = true := by
    intro a b c hab hbc
    simp only [decide_eq_true_eq] at hab hbc ⊢
    exact le_trans hab hbc
  have htotal : ∀ (a b : List Char),
      (decide (pyLower a ≤ pyLower b) || decide (pyLower b ≤ pyLower a)) = true := by
    intro a b
    simp only [Bool.or_eq_true, decide_eq_true_eq]
    exact le_total _ _
  have hsorted := List.sorted_mergeSort htrans htotal l
  refine ⟨List.mergeSort_of_sorted hsorted, ?_, List.mergeSort_perm l _⟩
  exact hsorted.imp (fun h => by simpa using h)
